import Mathlib

/-!
# JackRouter daemon: the JackBridge block driver

A shallow embedding of `src/daemon/JackBridge.cpp`: the per-block callback
`process_callback`, the ring transport (`sendToCoreAudio`,
`receiveFromCoreAudio`), the drift monitor (`check_progress`) and the
Jack to CoreMIDI loop of `process_midi_message`.

Conventions.
* A sample is the 32-bit pattern of a `float`; `0` is the pattern of `0.0f`.
* A buffer is a function from an index to a sample, a family of buffers a
  function from the channel (or stream) number to a buffer.  The rings of
  the shared memory segment and the port buffers of the host are distinct
  objects, as they are distinct memory regions in the program.
* A ring holds `ring_capacity` frames.  An access to a ring at a frame index
  at or beyond the capacity, and a division by a `FramesPerBuffer` of 0, are
  operations whose behaviour C leaves undefined: the model performs no store
  for them and sets the flag `fault` of the bridge.  Nothing is meant by the
  other fields of a bridge whose flag is set.
* `FrameNumber` is a 64-bit unsigned counter (it is printed with `%llu` and
  subtracted from the 64-bit shared counters); its arithmetic is written
  with an explicit `% 2^64`.
* `nframes` is the block size, a 32-bit `jack_nframes_t`.  The transport
  functions take it as `int`: `process_callback` hands them the converted
  value, and their loops do not run for a value that is not positive.
* `FramesPerBuffer` and the ring indices are declared in `JackBridge.h`; a
  remainder modulo `FramesPerBuffer` and the index of a position within a
  ring are taken to fit the `unsigned int` they are computed in.
* The activation seed is a counter that the bridge increments once in its
  life; it is a natural number here.
* The constants `STRBUFNUM`, `STRBUFSZ`, `NUM_INPUT_STREAMS`,
  `NUM_OUTPUT_STREAMS` and `JB_DRV_STATUS_STARTED` come from `JackBridge.h`,
  which is not part of the source file; they are parameters (`Config`).
-/

namespace JackRouter

/-- Constants that `JackBridge.cpp` takes from `JackBridge.h`. -/
structure Config where
  STRBUFNUM : Nat
  STRBUFSZ : Nat
  NUM_INPUT_STREAMS : Nat
  NUM_OUTPUT_STREAMS : Nat
  JB_DRV_STATUS_STARTED : Nat

/-- Bit pattern of one `float` sample. -/
abbrev Sample := Nat

/-- A family of sample buffers: channel (or stream) number, then index. -/
abbrev Channels := Nat → Nat → Sample

/-- Modelled from the spec: the capacity of a ring buffer in frames.  The
layout of the shared segment is declared in `JackBridge.h`, which is not part
of the source file; the spec sizes every ring as `ring_capacity` stereo frames
and sets the drift threshold to `ring_capacity/2`, which the code writes
`STRBUFNUM/2`, the value it also gives to `FramesPerBuffer`. -/
def ring_capacity (cfg : Config) : Nat := cfg.STRBUFNUM

/-- The macro `NUM_INPUT_CHANNELS` (line 43). -/
def NUM_INPUT_CHANNELS (cfg : Config) : Nat := cfg.NUM_INPUT_STREAMS * 2

/-- The macro `NUM_OUTPUT_CHANNELS` (line 44). -/
def NUM_OUTPUT_CHANNELS (cfg : Config) : Nat := cfg.NUM_OUTPUT_STREAMS * 2

/-- The loop `for (int i = 0; i < n; i++) body`, as a fold over `0 .. n-1`. -/
def forLoop {σ : Type} (n : Nat) (body : Nat → σ → σ) (init : σ) : σ :=
  (List.range n).foldl (fun st i => body i st) init

/-- The store `*(buf[j] + p) = v` (also `out[c][i] = v`). -/
def store (b : Channels) (j p : Nat) (v : Sample) : Channels :=
  Function.update b j (Function.update (b j) p v)

/-- Conversion of an unsigned value to `int` (two's complement, 32 bits). -/
def toInt32 (x : Nat) : Int :=
  if x % 2 ^ 32 < 2 ^ 31 then ((x % 2 ^ 32 : Nat) : Int)
  else ((x % 2 ^ 32 : Nat) : Int) - 2 ^ 32

/-- Subtraction of 64-bit unsigned integers. -/
def sub64 (a b : Nat) : Nat := (a % 2 ^ 64 + (2 ^ 64 - b % 2 ^ 64)) % 2 ^ 64

/-- The members of `JackBridge` that the block driver uses, together with the
fields of the shared memory segment that the bridge itself writes.  The last
field, `fault`, is not a member of the class: it records that the execution
has divided by a `FramesPerBuffer` of 0 or has accessed a ring outside its
capacity. -/
structure JackBridge where
  isActive : Bool
  isSyncMode : Bool
  isVerbose : Bool
  showmsg : Bool
  lastHostTime : Nat
  ncalls : Int
  FrameNumber : Nat
  FramesPerBuffer : Nat
  BufSize : Nat
  shmBufferSize : Nat
  shmSyncMode : Nat
  shmSeed : Nat
  shmZeroHostTime : Nat
  shmNumberTimeStamps : Nat
  buf_down : Channels
  buf_up : Channels
  fault : Bool

/-- What one invocation of the callback receives from outside: the block size,
the values it reads from the fields of the shared segment that the consumer
writes, the readings of the host clock, and the port buffers of the host.
`interval` is the value of the floating-point quotient of line 352 after its
conversion to `int`. -/
structure Block where
  nframes : Nat
  driverStatus : Nat
  writeFrameNumber0 : Nat
  interval : Int
  timeAtCheck : Nat
  timeAtHeartbeat : Nat
  ain : Channels
  aout : Channels

/-- One line of the warning printed by `check_progress`: the frame number,
`diff` and `interval`. -/
structure Warning where
  frame : Nat
  diff : Int
  interval : Int
deriving DecidableEq

/-- What one invocation leaves behind: the bridge, the output port buffers,
the value returned to the host, the warnings printed, and (as a record of the
execution) every store to `*shmNumberTimeStamps` as the pair of the value
held before and the value stored. -/
structure Result where
  state : JackBridge
  aout : Channels
  ret : Int
  warnings : List Warning
  tsWrites : List (Nat × Nat)

/-- The constructor (lines 54-60 and 71): `raw` gives the content of the shared
segment found at attachment and the members the constructor leaves
uninitialised (`showmsg`, `ncalls`); `verbose` tells whether verbose output is
on (the environment variable `JACKBRIDGE_DEBUG`, or `setVerbose` after the
option `-v`). -/
def JackBridge.new (cfg : Config) (raw : JackBridge) (verbose : Bool) : JackBridge :=
  { raw with
    isActive := false
    isSyncMode := true
    isVerbose := verbose
    FrameNumber := 0
    FramesPerBuffer := cfg.STRBUFNUM / 2
    shmBufferSize := cfg.STRBUFSZ
    shmSyncMode := 0
    lastHostTime := 0
    fault := false }

/-- The call `bzero(p, nbytes)` on a buffer of 4-byte samples: a sample that
lies within the first `nbytes` bytes becomes `0`, a sample that the range cuts
loses its first bytes (the low-order ones), the others are untouched. -/
def bzero (buf : Nat → Sample) (nbytes : Nat) : Nat → Sample :=
  fun k =>
    if 4 * (k + 1) ≤ nbytes then 0
    else if 4 * k < nbytes then
      (buf k % 2 ^ 32) / 256 ^ (nbytes - 4 * k) * 256 ^ (nbytes - 4 * k)
    else buf k

/-- The value `diff` of line 351. -/
def driftDiff (s : JackBridge) (blk : Block) : Int :=
  toInt32 (sub64 blk.writeFrameNumber0 s.FrameNumber)

/-- The function `check_progress` (lines 341-368). -/
def check_progress (cfg : Config) (s : JackBridge) (blk : Block) :
    JackBridge × List Warning :=
  let diff := driftDiff s blk
  let interval := blk.interval
  if s.showmsg then
    if diff ≥ ((cfg.STRBUFNUM / 2 : Nat) : Int) ∨ interval ≥ ((s.BufSize * 2 : Nat) : Int) then
      ({ s with showmsg := false, lastHostTime := blk.timeAtCheck },
        if s.isVerbose then [⟨s.FrameNumber, diff, interval⟩] else [])
    else
      ({ s with lastHostTime := blk.timeAtCheck }, [])
  else
    if diff < ((cfg.STRBUFNUM / 2 : Nat) : Int) then
      ({ s with showmsg := true, lastHostTime := blk.timeAtCheck }, [])
    else
      ({ s with lastHostTime := blk.timeAtCheck }, [])

/-- The activation of lines 109-122, with the stores to the timestamp index. -/
def activation (s : JackBridge) : JackBridge × List (Nat × Nat) :=
  if !s.isActive then
    let s1 := { s with ncalls := 0, FrameNumber := 0 }
    if s1.isSyncMode then
      ({ s1 with shmSyncMode := 1, shmNumberTimeStamps := 0,
                 shmSeed := s1.shmSeed + 1, isActive := true },
        [(s.shmNumberTimeStamps, 0)])
    else
      ({ s1 with isActive := true }, [])
  else (s, [])

/-- The heartbeat of lines 124-137, with the stores to the timestamp index.
With `FramesPerBuffer` = 0 the remainder of line 124 is a division by zero. -/
def heartbeat (s : JackBridge) (blk : Block) : JackBridge × List (Nat × Nat) :=
  if s.FramesPerBuffer = 0 then ({ s with fault := true }, [])
  else if s.FrameNumber % s.FramesPerBuffer = 0 then
    let r : JackBridge × List (Nat × Nat) :=
      if s.shmSyncMode = 1 then
        ({ s with shmZeroHostTime := blk.timeAtHeartbeat,
                  shmNumberTimeStamps := s.FrameNumber / s.FramesPerBuffer },
          [(s.shmNumberTimeStamps, s.FrameNumber / s.FramesPerBuffer)])
      else (s, [])
    if (!r.1.isSyncMode) && r.1.isVerbose then
      ({ r.1 with ncalls := r.1.ncalls + 1 }, r.2)
    else r
  else (s, [])

/-- The value of the expression of line 170, `FrameNumber % FramesPerBuffer`,
for a `FramesPerBuffer` that is not 0 (`sendToCoreAudio` flags the other
case). -/
def sendOffset (s : JackBridge) : Nat := s.FrameNumber % s.FramesPerBuffer

/-- The value of the expression of line 183, `(FrameNumber - nframes) %
FramesPerBuffer`, for a `FramesPerBuffer` that is not 0
(`receiveFromCoreAudio` flags the other case): the `int` is converted to the
64-bit unsigned type of the counter and the difference taken modulo `2^64`. -/
def recvOffset (s : JackBridge) (nframes : Int) : Nat :=
  (((s.FrameNumber : Int) - nframes) % 2 ^ 64).toNat % s.FramesPerBuffer

/-- The two stores of lines 174-175 on a family of rings. -/
def sendBody (inp : Channels) (offset i j : Nat) (bd : Channels) : Channels :=
  store (store bd j ((offset + i) * 2) (inp (j * 2) i)) j ((offset + i) * 2 + 1)
    (inp (j * 2 + 1) i)

/-- The body of the inner loop of `sendToCoreAudio` on the down rings and the
fault flag: the stores when frame `offset + i` lies in the ring, the flag
otherwise. -/
def sendStep (cfg : Config) (inp : Channels) (offset i j : Nat) (st : Channels × Bool) :
    Channels × Bool :=
  if offset + i < ring_capacity cfg then (sendBody inp offset i j st.1, st.2)
  else (st.1, true)

/-- The function `sendToCoreAudio` (lines 169-179); it returns `nframes`,
which the caller ignores. -/
def sendToCoreAudio (cfg : Config) (s : JackBridge) (inp : Channels) (nframes : Int) :
    JackBridge :=
  if s.FramesPerBuffer = 0 then { s with fault := true }
  else
    let offset := sendOffset s
    let r := forLoop nframes.toNat (fun i st =>
      forLoop cfg.NUM_INPUT_STREAMS (fun j st => sendStep cfg inp offset i j st) st)
      (s.buf_down, s.fault)
    { s with buf_down := r.1, fault := r.2 }

/-- The loads and stores of lines 187-190 on the pair of the up rings and the
output buffers. -/
def receiveBody (offset i j : Nat) (st : Channels × Channels) : Channels × Channels :=
  let out1 := store st.2 (j * 2) i (st.1 j ((offset + i) * 2))
  let out2 := store out1 (j * 2 + 1) i (st.1 j ((offset + i) * 2 + 1))
  let bu1 := store st.1 j ((offset + i) * 2) 0
  let bu2 := store bu1 j ((offset + i) * 2 + 1) 0
  (bu2, out2)

/-- The body of the inner loop of `receiveFromCoreAudio` on the up rings, the
output buffers and the fault flag: the loads and stores when frame
`offset + i` lies in the ring, the flag otherwise. -/
def receiveStep (cfg : Config) (offset i j : Nat) (st : (Channels × Channels) × Bool) :
    (Channels × Channels) × Bool :=
  if offset + i < ring_capacity cfg then (receiveBody offset i j st.1, st.2)
  else (st.1, true)

/-- The function `receiveFromCoreAudio` (lines 181-194); it returns `nframes`,
which the caller ignores. -/
def receiveFromCoreAudio (cfg : Config) (s : JackBridge) (out : Channels) (nframes : Int) :
    JackBridge × Channels :=
  if s.FramesPerBuffer = 0 then ({ s with fault := true }, out)
  else
    let offset := recvOffset s nframes
    let r := forLoop nframes.toNat (fun i st =>
      forLoop cfg.NUM_OUTPUT_STREAMS (fun j st => receiveStep cfg offset i j st) st)
      ((s.buf_up, out), s.fault)
    ({ s with buf_up := r.1.1, fault := r.2 }, r.1.2)

/-- The idle branch of lines 99-102: `bzero` on every output port buffer. -/
def zeroOutputs (cfg : Config) (aout : Channels) : Channels :=
  forLoop (NUM_OUTPUT_CHANNELS cfg) (fun i ao =>
    Function.update ao i (bzero (ao i) cfg.STRBUFSZ)) aout

/-- The method `process_callback` (lines 89-153), without the MIDI relay that
the optional `_WITH_MIDI_BRIDGE_` build runs first on its own ports.  The block
size reaches the transport converted to `int` (lines 142 and 148).  When the
division of line 124 is by zero the invocation ends there, with the flag
`fault` set. -/
def process_callback (cfg : Config) (s : JackBridge) (blk : Block) : Result :=
  if blk.driverStatus ≠ cfg.JB_DRV_STATUS_STARTED then
    { state := s, aout := zeroOutputs cfg blk.aout, ret := 0,
      warnings := [], tsWrites := [] }
  else
    let c := check_progress cfg s blk
    let a := activation c.1
    let h := heartbeat a.1 blk
    if a.1.FramesPerBuffer = 0 then
      { state := h.1, aout := blk.aout, ret := 0, warnings := c.2, tsWrites := a.2 ++ h.2 }
    else
      let s4 := sendToCoreAudio cfg h.1 blk.ain (toInt32 blk.nframes)
      let r := receiveFromCoreAudio cfg s4 blk.aout (toInt32 blk.nframes)
      { state := { r.1 with FrameNumber := (r.1.FrameNumber + blk.nframes) % 2 ^ 64 },
        aout := r.2, ret := 0, warnings := c.2, tsWrites := a.2 ++ h.2 }

/-- The copy of lines 311-314: `message` is cleared, then receives the bytes
of the event one by one. -/
def copyEvent (event : List Nat) : List Nat :=
  forLoop event.length (fun j message => message ++ [event.getD j 0]) []

/-- The Jack to CoreMIDI loop of `process_midi_message` (lines 306-319).
`midiIn n` is the list of the events of the host port buffer `n`, each event
the list of its bytes; `sent n` is the list of the messages handed to
`midiout[n]->sendMessage` so far.  The second loop of the function (CoreMIDI
to Jack) works on the input ports and the playback buffers only. -/
def process_midi_message (nOutPorts : Nat) (midiIn : Nat → List (List Nat))
    (sent : Nat → List (List Nat)) : Nat → List (List Nat) :=
  forLoop nOutPorts (fun n sent =>
    forLoop (midiIn n).length (fun i sent =>
      let message := copyEvent ((midiIn n).getD i [])
      if message.length > 0 then Function.update sent n (sent n ++ [message]) else sent)
      sent) sent

/-! ## Concrete inputs -/

/-- A build with rings of 4096 frames. -/
def cfg4096 : Config :=
  { STRBUFNUM := 4096, STRBUFSZ := 16384, NUM_INPUT_STREAMS := 2,
    NUM_OUTPUT_STREAMS := 2, JB_DRV_STATUS_STARTED := 2 }

/-- A shared segment filled with zeros, and members cleared. -/
def blankBridge : JackBridge :=
  { isActive := false, isSyncMode := false, isVerbose := false, showmsg := true,
    lastHostTime := 0, ncalls := 0, FrameNumber := 0, FramesPerBuffer := 0,
    BufSize := 512, shmBufferSize := 0, shmSyncMode := 0, shmSeed := 0,
    shmZeroHostTime := 0, shmNumberTimeStamps := 0,
    buf_down := fun _ _ => 0, buf_up := fun _ _ => 0, fault := false }

/-- A block of `F` frames with the given driver status; the input ports carry
a ramp, the output ports still hold `1.0f` (pattern `0x3F800000`). -/
def testBlock (status F : Nat) : Block :=
  { nframes := F, driverStatus := status, writeFrameNumber0 := 0, interval := 0,
    timeAtCheck := 0, timeAtHeartbeat := 0,
    ain := fun c i => 1000 * (c + 1) + i, aout := fun _ _ => 0x3F800000 }

/-- An active bridge of the build `cfg4096` at frame 2560, whose up rings hold
at every position the position plus one. -/
def bridgeAt2560 : JackBridge :=
  { JackBridge.new cfg4096 blankBridge false with
    isActive := true, FrameNumber := 2560, buf_up := fun _ p => p + 1 }

theorem forLoop_zero {σ : Type} (body : Nat → σ → σ) (init : σ) :
    forLoop 0 body init = init := by
  simp [forLoop]

theorem forLoop_succ {σ : Type} (n : Nat) (body : Nat → σ → σ) (init : σ) :
    forLoop (n + 1) body init = body n (forLoop n body init) := by
  simp [forLoop, List.range_succ, List.foldl_append]

theorem store_apply (b : Channels) (j p : Nat) (v : Sample) (j2 p2 : Nat) :
    store b j p v j2 p2 = if j2 = j ∧ p2 = p then v else b j2 p2 := by
  unfold store
  by_cases hj : j2 = j
  · subst hj
    by_cases hp : p2 = p
    · subst hp; simp
    · simp [Function.update_noteq hp, hp]
  · simp [Function.update_noteq hj, hj]


theorem forLoop_pair {α : Type} (m : Nat) (g : Nat → α → α) (a : α) (f : Bool) :
    forLoop m (fun j (st : α × Bool) => (g j st.1, st.2)) (a, f) = (forLoop m g a, f) := by
  induction m with
  | zero => simp [forLoop_zero]
  | succ m ih => rw [forLoop_succ, forLoop_succ, ih]

theorem forLoop_flag {α : Type} (m : Nat) (a : α) (f : Bool) :
    forLoop m (fun _ (st : α × Bool) => (st.1, true)) (a, f) = (a, f || decide (0 < m)) := by
  induction m with
  | zero => simp [forLoop_zero]
  | succ m ih =>
    rw [forLoop_succ, ih]
    simp

/-! ## The scatter loop in closed form -/

theorem send_inner (inp : Channels) (k i : Nat) (m : Nat) (bd : Channels) (j p : Nat) :
    forLoop m (fun j bd => sendBody inp k i j bd) bd j p
      = if j < m ∧ p / 2 = k + i then inp (j * 2 + p % 2) i else bd j p := by
  induction m with
  | zero => simp [forLoop_zero]
  | succ m ih =>
    rw [forLoop_succ]
    simp only [sendBody, store_apply]
    rw [show forLoop m (fun j bd => store (store bd j ((k + i) * 2) (inp (j * 2) i)) j
        ((k + i) * 2 + 1) (inp (j * 2 + 1) i)) bd
        = forLoop m (fun j bd => sendBody inp k i j bd) bd from rfl, ih]
    by_cases hj : j = m
    · subst hj
      by_cases h1 : p = (k + i) * 2 + 1
      · subst h1
        have e1 : ((k + i) * 2 + 1) / 2 = k + i := by omega
        have e2 : ((k + i) * 2 + 1) % 2 = 1 := by omega
        simp [e1, e2]
      · by_cases h0 : p = (k + i) * 2
        · subst h0
          have e1 : ((k + i) * 2) / 2 = k + i := by omega
          have e2 : ((k + i) * 2) % 2 = 0 := by omega
          simp [e1, e2]
        · have e : ¬ p / 2 = k + i := by omega
          simp [h1, h0, e]
    · by_cases hlt : j < m
      · have : j < m + 1 := by omega
        simp [hj, hlt, this]
      · have : ¬ j < m + 1 := by omega
        simp [hj, hlt, this]

theorem sendStep_inner (cfg : Config) (inp : Channels) (off i m : Nat)
    (st : Channels × Bool) :
    forLoop m (fun j st => sendStep cfg inp off i j st) st
      = if off + i < ring_capacity cfg
        then (forLoop m (fun j bd => sendBody inp off i j bd) st.1, st.2)
        else (st.1, st.2 || decide (0 < m)) := by
  by_cases h : off + i < ring_capacity cfg
  · simp only [sendStep, h, if_true]
    exact forLoop_pair m (fun j bd => sendBody inp off i j bd) st.1 st.2
  · simp only [sendStep, h, if_false]
    exact forLoop_flag m st.1 st.2

/-- The scatter loops: the rings and the flag they leave. -/
theorem send_loop (cfg : Config) (inp : Channels) (off n : Nat) (bd : Channels) (f : Bool) :
    forLoop n (fun i st =>
        forLoop cfg.NUM_INPUT_STREAMS (fun j st => sendStep cfg inp off i j st) st) (bd, f)
      = ((fun j p => if j < cfg.NUM_INPUT_STREAMS ∧ off ≤ p / 2 ∧ p / 2 < off + n
            ∧ p / 2 < ring_capacity cfg
          then inp (j * 2 + p % 2) (p / 2 - off) else bd j p),
         f || decide (0 < cfg.NUM_INPUT_STREAMS ∧ 0 < n ∧ ring_capacity cfg < off + n)) := by
  induction n with
  | zero =>
    rw [forLoop_zero]
    refine Prod.ext ?_ ?_
    · funext j p
      dsimp only
      rw [if_neg]
      intro h
      omega
    · simp
  | succ n ih =>
    rw [forLoop_succ, ih, sendStep_inner]
    by_cases h : off + n < ring_capacity cfg
    · rw [if_pos h]
      refine Prod.ext ?_ ?_
      · funext j p
        dsimp only
        rw [send_inner]
        by_cases hj : j < cfg.NUM_INPUT_STREAMS
        · by_cases hp : p / 2 = off + n
          · have h3 : p / 2 - off = n := by omega
            rw [if_pos ⟨hj, hp⟩, if_pos ⟨hj, by omega, by omega, by omega⟩, h3]
          · rw [if_neg (fun hh => hp hh.2)]
            by_cases hq : off ≤ p / 2 ∧ p / 2 < off + n ∧ p / 2 < ring_capacity cfg
            · rw [if_pos ⟨hj, hq⟩, if_pos ⟨hj, by omega, by omega, by omega⟩]
            · rw [if_neg (fun hh => hq hh.2), if_neg]
              intro hh
              omega
        · rw [if_neg (fun hh => hj hh.1), if_neg (fun hh => hj hh.1),
            if_neg (fun hh => hj hh.1)]
      · dsimp only
        have a1 : ¬ (0 < cfg.NUM_INPUT_STREAMS ∧ 0 < n ∧ ring_capacity cfg < off + n) := by
          omega
        have a2 : ¬ (0 < cfg.NUM_INPUT_STREAMS ∧ 0 < n + 1
            ∧ ring_capacity cfg < off + (n + 1)) := by omega
        rw [decide_eq_false a1, decide_eq_false a2]
    · rw [if_neg h]
      refine Prod.ext ?_ ?_
      · funext j p
        dsimp only
        by_cases hq : j < cfg.NUM_INPUT_STREAMS ∧ off ≤ p / 2 ∧ p / 2 < off + n
            ∧ p / 2 < ring_capacity cfg
        · rw [if_pos hq, if_pos ⟨hq.1, hq.2.1, by omega, hq.2.2.2⟩]
        · rw [if_neg hq, if_neg]
          intro hh
          exact hq ⟨hh.1, hh.2.1, by omega, hh.2.2.2⟩
      · dsimp only
        by_cases hN : 0 < cfg.NUM_INPUT_STREAMS
        · have a2 : 0 < cfg.NUM_INPUT_STREAMS ∧ 0 < n + 1
              ∧ ring_capacity cfg < off + (n + 1) := ⟨hN, by omega, by omega⟩
          simp [hN, a2]
        · simp [hN]

/-! ## The gather loop in closed form -/

theorem receive_inner (off i m : Nat) (bu out : Channels) :
    (∀ j p, (forLoop m (fun j st => receiveBody off i j st) (bu, out)).1 j p
        = if j < m ∧ p / 2 = off + i then 0 else bu j p) ∧
    (∀ c k, (forLoop m (fun j st => receiveBody off i j st) (bu, out)).2 c k
        = if k = i ∧ c / 2 < m then bu (c / 2) ((off + i) * 2 + c % 2) else out c k) := by
  induction m with
  | zero => simp [forLoop_zero]
  | succ m ih =>
    obtain ⟨ih1, ih2⟩ := ih
    rw [forLoop_succ]
    generalize forLoop m (fun j st => receiveBody off i j st) (bu, out) = st at ih1 ih2 ⊢
    constructor
    · intro j p
      simp only [receiveBody, store_apply, ih1]
      by_cases hj : j = m
      · by_cases h1 : p = (off + i) * 2 + 1
        · have e : p / 2 = off + i := by omega
          rw [if_pos ⟨hj, h1⟩, if_pos ⟨by omega, e⟩]
        · by_cases h0 : p = (off + i) * 2
          · have e : p / 2 = off + i := by omega
            rw [if_neg (fun h => h1 h.2), if_pos ⟨hj, h0⟩, if_pos ⟨by omega, e⟩]
          · have e : ¬ p / 2 = off + i := by omega
            rw [if_neg (fun h => h1 h.2), if_neg (fun h => h0 h.2), if_neg (fun h => e h.2),
              if_neg (fun h => e h.2)]
      · rw [if_neg (fun h => hj h.1), if_neg (fun h => hj h.1)]
        by_cases hlt : j < m
        · by_cases e : p / 2 = off + i
          · rw [if_pos ⟨hlt, e⟩, if_pos ⟨by omega, e⟩]
          · rw [if_neg (fun h => e h.2), if_neg (fun h => e h.2)]
        · rw [if_neg (fun h => hlt h.1), if_neg]
          intro h
          omega
    · intro c k
      simp only [receiveBody, store_apply, ih1, ih2]
      by_cases hk : k = i
      · by_cases h1 : c = m * 2 + 1
        · have e1 : c / 2 = m := by omega
          have e2 : c % 2 = 1 := by omega
          rw [if_pos ⟨h1, hk⟩, if_neg (fun h => absurd h.1 (by omega)),
            if_pos ⟨hk, by omega⟩, e1, e2]
        · by_cases h0 : c = m * 2
          · have e1 : c / 2 = m := by omega
            have e2 : c % 2 = 0 := by omega
            rw [if_neg (fun h => h1 h.1), if_pos ⟨h0, hk⟩,
              if_neg (fun h => absurd h.1 (by omega)), if_pos ⟨hk, by omega⟩, e1, e2]
            rfl
          · rw [if_neg (fun h => h1 h.1), if_neg (fun h => h0 h.1)]
            by_cases hlt : c / 2 < m
            · rw [if_pos ⟨hk, hlt⟩, if_pos ⟨hk, by omega⟩]
            · rw [if_neg (fun h => hlt h.2), if_neg]
              intro h
              omega
      · rw [if_neg (fun h => hk h.2), if_neg (fun h => hk h.2), if_neg (fun h => hk h.1),
          if_neg (fun h => hk h.1)]

theorem receiveStep_inner (cfg : Config) (off i m : Nat)
    (st : (Channels × Channels) × Bool) :
    forLoop m (fun j st => receiveStep cfg off i j st) st
      = if off + i < ring_capacity cfg
        then (forLoop m (fun j st => receiveBody off i j st) st.1, st.2)
        else (st.1, st.2 || decide (0 < m)) := by
  by_cases h : off + i < ring_capacity cfg
  · simp only [receiveStep, h, if_true]
    exact forLoop_pair m (fun j st => receiveBody off i j st) st.1 st.2
  · simp only [receiveStep, h, if_false]
    exact forLoop_flag m st.1 st.2

/-- The gather loops: the rings, the output buffers and the flag they leave. -/
theorem receive_loop (cfg : Config) (off n : Nat) (bu out : Channels) (f : Bool) :
    forLoop n (fun i st =>
        forLoop cfg.NUM_OUTPUT_STREAMS (fun j st => receiveStep cfg off i j st) st)
        ((bu, out), f)
      = (((fun j p => if j < cfg.NUM_OUTPUT_STREAMS ∧ off ≤ p / 2 ∧ p / 2 < off + n
              ∧ p / 2 < ring_capacity cfg then 0 else bu j p),
          (fun c k => if k < n ∧ c / 2 < cfg.NUM_OUTPUT_STREAMS ∧ off + k < ring_capacity cfg
              then bu (c / 2) ((off + k) * 2 + c % 2) else out c k)),
         f || decide (0 < cfg.NUM_OUTPUT_STREAMS ∧ 0 < n ∧ ring_capacity cfg < off + n)) := by
  induction n with
  | zero =>
    rw [forLoop_zero]
    refine Prod.ext (Prod.ext ?_ ?_) ?_
    · funext j p
      dsimp only
      rw [if_neg]
      intro h
      omega
    · funext c k
      dsimp only
      rw [if_neg]
      intro h
      omega
    · simp
  | succ n ih =>
    rw [forLoop_succ, ih, receiveStep_inner]
    by_cases h : off + n < ring_capacity cfg
    · rw [if_pos h]
      obtain ⟨in1, in2⟩ := receive_inner off n cfg.NUM_OUTPUT_STREAMS
        (fun j p => if j < cfg.NUM_OUTPUT_STREAMS ∧ off ≤ p / 2 ∧ p / 2 < off + n
              ∧ p / 2 < ring_capacity cfg then 0 else bu j p)
        (fun c k => if k < n ∧ c / 2 < cfg.NUM_OUTPUT_STREAMS ∧ off + k < ring_capacity cfg
              then bu (c / 2) ((off + k) * 2 + c % 2) else out c k)
      refine Prod.ext (Prod.ext ?_ ?_) ?_
      · funext j p
        dsimp only
        rw [in1]
        by_cases hj : j < cfg.NUM_OUTPUT_STREAMS
        · by_cases hp : p / 2 = off + n
          · rw [if_pos ⟨hj, hp⟩, if_pos ⟨hj, by omega, by omega, by omega⟩]
          · rw [if_neg (fun hh => hp hh.2)]
            by_cases hq : off ≤ p / 2 ∧ p / 2 < off + n ∧ p / 2 < ring_capacity cfg
            · rw [if_pos ⟨hj, hq⟩, if_pos ⟨hj, by omega, by omega, by omega⟩]
            · rw [if_neg (fun hh => hq hh.2), if_neg]
              intro hh
              omega
        · rw [if_neg (fun hh => hj hh.1), if_neg (fun hh => hj hh.1),
            if_neg (fun hh => hj hh.1)]
      · funext c k
        dsimp only
        rw [in2]
        by_cases hc : c / 2 < cfg.NUM_OUTPUT_STREAMS
        · by_cases hk : k = n
          · subst hk
            have hneg : ¬ (c / 2 < cfg.NUM_OUTPUT_STREAMS ∧ off ≤ ((off + k) * 2 + c % 2) / 2
                ∧ ((off + k) * 2 + c % 2) / 2 < off + k
                ∧ ((off + k) * 2 + c % 2) / 2 < ring_capacity cfg) := by
              intro hh
              omega
            rw [if_pos ⟨rfl, hc⟩, if_neg hneg, if_pos ⟨by omega, hc, h⟩]
          · rw [if_neg (fun hh => hk hh.1)]
            by_cases hlt : k < n ∧ off + k < ring_capacity cfg
            · rw [if_pos ⟨hlt.1, hc, hlt.2⟩, if_pos ⟨by omega, hc, hlt.2⟩]
            · rw [if_neg (fun hh => hlt ⟨hh.1, hh.2.2⟩), if_neg]
              intro hh
              exact hlt ⟨by omega, hh.2.2⟩
        · rw [if_neg (fun hh => hc hh.2), if_neg (fun hh => hc hh.2.1),
            if_neg (fun hh => hc hh.2.1)]
      · dsimp only
        have a1 : ¬ (0 < cfg.NUM_OUTPUT_STREAMS ∧ 0 < n ∧ ring_capacity cfg < off + n) := by
          omega
        have a2 : ¬ (0 < cfg.NUM_OUTPUT_STREAMS ∧ 0 < n + 1
            ∧ ring_capacity cfg < off + (n + 1)) := by omega
        rw [decide_eq_false a1, decide_eq_false a2]
    · rw [if_neg h]
      refine Prod.ext (Prod.ext ?_ ?_) ?_
      · funext j p
        dsimp only
        by_cases hq : j < cfg.NUM_OUTPUT_STREAMS ∧ off ≤ p / 2 ∧ p / 2 < off + n
            ∧ p / 2 < ring_capacity cfg
        · rw [if_pos hq, if_pos ⟨hq.1, hq.2.1, by omega, hq.2.2.2⟩]
        · rw [if_neg hq, if_neg]
          intro hh
          exact hq ⟨hh.1, hh.2.1, by omega, hh.2.2.2⟩
      · funext c k
        dsimp only
        by_cases hq : k < n ∧ c / 2 < cfg.NUM_OUTPUT_STREAMS ∧ off + k < ring_capacity cfg
        · rw [if_pos hq, if_pos ⟨by omega, hq.2⟩]
        · rw [if_neg hq, if_neg]
          intro hh
          exact hq ⟨by omega, hh.2⟩
      · dsimp only
        by_cases hN : 0 < cfg.NUM_OUTPUT_STREAMS
        · have a2 : 0 < cfg.NUM_OUTPUT_STREAMS ∧ 0 < n + 1
              ∧ ring_capacity cfg < off + (n + 1) := ⟨hN, by omega, by omega⟩
          simp [hN, a2]
        · simp [hN]

/-! ## The transport functions -/

/-- The down rings after `sendToCoreAudio`. -/
theorem sendToCoreAudio_buf_down (cfg : Config) (s : JackBridge) (inp : Channels)
    (n : Int) (j p : Nat) (h0 : s.FramesPerBuffer ≠ 0) :
    (sendToCoreAudio cfg s inp n).buf_down j p
      = if j < cfg.NUM_INPUT_STREAMS ∧ sendOffset s ≤ p / 2 ∧ p / 2 < sendOffset s + n.toNat
          ∧ p / 2 < ring_capacity cfg
        then inp (j * 2 + p % 2) (p / 2 - sendOffset s) else s.buf_down j p := by
  unfold sendToCoreAudio
  rw [if_neg h0]
  simp only []
  rw [send_loop]

/-- The flag after `sendToCoreAudio`. -/
theorem sendToCoreAudio_fault (cfg : Config) (s : JackBridge) (inp : Channels)
    (n : Int) (h0 : s.FramesPerBuffer ≠ 0) :
    (sendToCoreAudio cfg s inp n).fault
      = (s.fault || decide (0 < cfg.NUM_INPUT_STREAMS ∧ 0 < n.toNat
          ∧ ring_capacity cfg < sendOffset s + n.toNat)) := by
  unfold sendToCoreAudio
  rw [if_neg h0]
  simp only []
  rw [send_loop]

/-- The up rings after `receiveFromCoreAudio`. -/
theorem receiveFromCoreAudio_buf_up (cfg : Config) (s : JackBridge) (out : Channels)
    (n : Int) (j p : Nat) (h0 : s.FramesPerBuffer ≠ 0) :
    (receiveFromCoreAudio cfg s out n).1.buf_up j p
      = if j < cfg.NUM_OUTPUT_STREAMS ∧ recvOffset s n ≤ p / 2
          ∧ p / 2 < recvOffset s n + n.toNat ∧ p / 2 < ring_capacity cfg
        then 0 else s.buf_up j p := by
  unfold receiveFromCoreAudio
  rw [if_neg h0]
  simp only []
  rw [receive_loop]

/-- The output buffers after `receiveFromCoreAudio`. -/
theorem receiveFromCoreAudio_out (cfg : Config) (s : JackBridge) (out : Channels)
    (n : Int) (c k : Nat) (h0 : s.FramesPerBuffer ≠ 0) :
    (receiveFromCoreAudio cfg s out n).2 c k
      = if k < n.toNat ∧ c / 2 < cfg.NUM_OUTPUT_STREAMS
          ∧ recvOffset s n + k < ring_capacity cfg
        then s.buf_up (c / 2) ((recvOffset s n + k) * 2 + c % 2) else out c k := by
  unfold receiveFromCoreAudio
  rw [if_neg h0]
  simp only []
  rw [receive_loop]

/-- The flag after `receiveFromCoreAudio`. -/
theorem receiveFromCoreAudio_fault (cfg : Config) (s : JackBridge) (out : Channels)
    (n : Int) (h0 : s.FramesPerBuffer ≠ 0) :
    (receiveFromCoreAudio cfg s out n).1.fault
      = (s.fault || decide (0 < cfg.NUM_OUTPUT_STREAMS ∧ 0 < n.toNat
          ∧ ring_capacity cfg < recvOffset s n + n.toNat)) := by
  unfold receiveFromCoreAudio
  rw [if_neg h0]
  simp only []
  rw [receive_loop]

/-! ## What each step leaves unchanged -/

theorem process_callback_idle (cfg : Config) (s : JackBridge) (blk : Block)
    (hS : blk.driverStatus ≠ cfg.JB_DRV_STATUS_STARTED) :
    process_callback cfg s blk
      = { state := s, aout := zeroOutputs cfg blk.aout, ret := 0,
          warnings := [], tsWrites := [] } := by
  simp [process_callback, hS]

/-! ## Arithmetic of the frame counter and of the block size -/

/-- C10 (ring bounds): with `FramesPerBuffer = ring_capacity/2` and a block of
`1 ≤ F ≤ FramesPerBuffer` frames, whatever `FrameNumber` is, every frame index
`offset + i` (`i < F`) of `sendToCoreAudio` and of `receiveFromCoreAudio` is
below `ring_capacity`; accordingly the scatter leaves every down ring
untouched from frame `ring_capacity` on, the gather leaves every up ring
untouched from there on, what the gather returns does not depend on what
lies there, and neither function makes an access outside a ring (the flag
`fault` is as it was). -/
theorem C10_ring_bounds (cfg : Config) (s : JackBridge) (inp out : Channels) (F : Nat)
    (hFPB : s.FramesPerBuffer = ring_capacity cfg / 2) (h1 : 1 ≤ F)
    (h2 : F ≤ s.FramesPerBuffer) :
    (∀ i, i < F → sendOffset s + i < ring_capacity cfg ∧
      recvOffset s F + i < ring_capacity cfg) ∧
    (∀ j p, ring_capacity cfg ≤ p / 2 →
      (sendToCoreAudio cfg s inp F).buf_down j p = s.buf_down j p) ∧
    (∀ j p, ring_capacity cfg ≤ p / 2 →
      (receiveFromCoreAudio cfg s out F).1.buf_up j p = s.buf_up j p) ∧
    (∀ up2 : Channels, (∀ j p, p / 2 < ring_capacity cfg → up2 j p = s.buf_up j p) →
      (receiveFromCoreAudio cfg { s with buf_up := up2 } out F).2
        = (receiveFromCoreAudio cfg s out F).2) ∧
    (sendToCoreAudio cfg s inp F).fault = s.fault ∧
    (receiveFromCoreAudio cfg s out F).1.fault = s.fault := by
  have hpos : 0 < s.FramesPerBuffer := by omega
  have h0 : s.FramesPerBuffer ≠ 0 := by omega
  have hs : sendOffset s < s.FramesPerBuffer := Nat.mod_lt _ hpos
  have hr : recvOffset s F < s.FramesPerBuffer := Nat.mod_lt _ hpos
  have hcap : 2 * s.FramesPerBuffer ≤ ring_capacity cfg := by omega
  have hF : (F : Int).toNat = F := Int.toNat_ofNat F
  refine ⟨fun i hi => ⟨by omega, by omega⟩, ?_, ?_, ?_, ?_, ?_⟩
  · intro j p hp
    rw [sendToCoreAudio_buf_down _ _ _ _ _ _ h0, if_neg]
    intro h
    omega
  · intro j p hp
    rw [receiveFromCoreAudio_buf_up _ _ _ _ _ _ h0, if_neg]
    intro h
    omega
  · intro up2 hup
    funext c k
    have h0b : ({ s with buf_up := up2 } : JackBridge).FramesPerBuffer ≠ 0 := h0
    rw [receiveFromCoreAudio_out _ _ _ _ _ _ h0b, receiveFromCoreAudio_out _ _ _ _ _ _ h0]
    have hro : recvOffset { s with buf_up := up2 } F = recvOffset s F := rfl
    rw [hro]
    by_cases h : k < (F : Int).toNat ∧ c / 2 < cfg.NUM_OUTPUT_STREAMS
        ∧ recvOffset s F + k < ring_capacity cfg
    · rw [if_pos h, if_pos h]
      exact hup _ _ (by omega)
    · rw [if_neg h, if_neg h]
  · rw [sendToCoreAudio_fault _ _ _ _ h0, hF, decide_eq_false (by omega)]
    simp
  · rw [receiveFromCoreAudio_fault _ _ _ _ h0, hF, decide_eq_false (by omega)]
    simp

/-- A block of 512 frames on the build `cfg4096` at frame 2560: the last frame
index of the scatter and of the gather lies within the ring. -/
theorem C10_ring_bounds_witness :
    sendOffset bridgeAt2560 + 511 < ring_capacity cfg4096 ∧
    recvOffset bridgeAt2560 (512 : Nat) + 511 < ring_capacity cfg4096 :=
  (C10_ring_bounds cfg4096 bridgeAt2560 (fun _ _ => 0) (fun _ _ => 0) 512
    (by decide) (by decide) (by decide)).1 511 (by decide)

theorem zeroOutputs_apply (cfg : Config) (aout : Channels) (c : Nat) :
    zeroOutputs cfg aout c
      = if c < NUM_OUTPUT_CHANNELS cfg then bzero (aout c) cfg.STRBUFSZ else aout c := by
  unfold zeroOutputs
  generalize NUM_OUTPUT_CHANNELS cfg = n
  induction n generalizing c with
  | zero => simp [forLoop_zero]
  | succ n ih =>
    rw [forLoop_succ]
    by_cases hc : c = n
    · subst hc
      simp only [Function.update_same]
      rw [ih, if_neg (by omega), if_pos (by omega)]
    · rw [Function.update_noteq hc, ih]
      by_cases hlt : c < n
      · rw [if_pos hlt, if_pos (by omega)]
      · rw [if_neg hlt, if_neg (by omega)]

/-- C1 (idle invariant) on the code: an invocation that finds the driver not
started returns 0 and leaves the bridge as it is, but it clears `STRBUFSZ`
bytes of every output port buffer whatever the block size is: the samples
that lie within the first `STRBUFSZ` bytes are zero afterwards, every sample
from byte `STRBUFSZ` on keeps the value it had. -/
theorem C1_idle_clears_fixed_size (cfg : Config) (s : JackBridge) (blk : Block)
    (hS : blk.driverStatus ≠ cfg.JB_DRV_STATUS_STARTED) :
    (process_callback cfg s blk).ret = 0 ∧
    (process_callback cfg s blk).state = s ∧
    (∀ c k, c < NUM_OUTPUT_CHANNELS cfg → 4 * (k + 1) ≤ cfg.STRBUFSZ →
      (process_callback cfg s blk).aout c k = 0) ∧
    (∀ c k, cfg.STRBUFSZ ≤ 4 * k →
      (process_callback cfg s blk).aout c k = blk.aout c k) := by
  rw [process_callback_idle cfg s blk hS]
  refine ⟨rfl, rfl, ?_, ?_⟩
  · intro c k hc hk
    show zeroOutputs cfg blk.aout c k = 0
    rw [zeroOutputs_apply, if_pos hc]
    unfold bzero
    rw [if_pos hk]
  · intro c k hk
    show zeroOutputs cfg blk.aout c k = blk.aout c k
    rw [zeroOutputs_apply]
    split_ifs
    · unfold bzero
      rw [if_neg (by omega), if_neg (by omega)]
    · rfl

/-- With `STRBUFSZ` = 16384 bytes and an idle block of 8192 frames whose output
ports held `1.0f`, sample 4096 of channel 0 is still `1.0f` after the call. -/
theorem C1_idle_clears_fixed_size_witness :
    (testBlock 0 8192).nframes = 8192 ∧
    (process_callback cfg4096 blankBridge (testBlock 0 8192)).aout 0 4096 = 0x3F800000 :=
  ⟨rfl, (C1_idle_clears_fixed_size cfg4096 blankBridge (testBlock 0 8192)
    (by decide)).2.2.2 0 4096 (by decide)⟩

/-! ## Sequences of invocations -/

theorem copyEvent_take (event : List Nat) (n : Nat) (hn : n ≤ event.length) :
    forLoop n (fun j message => message ++ [event.getD j 0]) [] = event.take n := by
  induction n with
  | zero => simp [forLoop_zero]
  | succ n ih =>
    rw [forLoop_succ, ih (by omega), List.take_succ]
    have h : n < event.length := by omega
    simp [List.getD, List.getElem?_eq_getElem h]

theorem copyEvent_eq (event : List Nat) : copyEvent event = event := by
  unfold copyEvent
  rw [copyEvent_take event event.length (Nat.le_refl _), List.take_length]

/-- The inner loop of the relay on port `n` after the first `m` events. -/
theorem midi_inner (n : Nat) (events : List (List Nat)) (m : Nat) (hm : m ≤ events.length)
    (sent : Nat → List (List Nat)) :
    forLoop m (fun i sent =>
        let message := copyEvent (events.getD i [])
        if message.length > 0 then Function.update sent n (sent n ++ [message]) else sent) sent
      = Function.update sent n
          (sent n ++ (events.take m).filter (fun e => decide (e.length > 0))) := by
  induction m with
  | zero => simp [forLoop_zero]
  | succ m ih =>
    rw [forLoop_succ, ih (by omega), List.take_succ]
    have h : m < events.length := by omega
    have hq : events[m]? = some events[m] := List.getElem?_eq_getElem h
    have hg : events.getD m [] = events[m] := by simp [List.getD, hq]
    simp only [copyEvent_eq, hg, hq, Option.toList_some, List.filter_append,
      Function.update_same, Function.update_idem]
    by_cases he : (events[m]).length > 0
    · simp [he, List.filter_cons]
    · simp [he, List.filter_cons]

/-- C8 (MIDI relay ordering/drop): for every content of the host capture port
buffers, the Jack to CoreMIDI loop hands to the virtual output port of every
port `n < nOutPorts` exactly the non-empty events of the port buffer `n`, bytes
unchanged and in arrival order, after what the port had been sent before; an
empty event sends nothing, and the other ports are sent nothing.  For the
events `{}`, `90 40 7F`, `80 40 00` the port receives `90 40 7F`, then
`80 40 00`. -/
theorem C8_midi_relay (nOutPorts : Nat) (midiIn : Nat → List (List Nat))
    (sent : Nat → List (List Nat)) (n : Nat) :
    process_midi_message nOutPorts midiIn sent n
      = (if n < nOutPorts
         then sent n ++ (midiIn n).filter (fun e => decide (e.length > 0))
         else sent n) ∧
    process_midi_message 1 (fun _ => [[], [0x90, 0x40, 0x7F], [0x80, 0x40, 0x00]])
        (fun _ => []) 0
      = [[0x90, 0x40, 0x7F], [0x80, 0x40, 0x00]] := by
  have key : ∀ (k : Nat) (mi : Nat → List (List Nat)) (st : Nat → List (List Nat)) (q : Nat),
      process_midi_message k mi st q
        = (if q < k then st q ++ (mi q).filter (fun e => decide (e.length > 0))
           else st q) := by
    intro k mi st q
    unfold process_midi_message
    induction k with
    | zero => simp [forLoop_zero]
    | succ k ih =>
      rw [forLoop_succ, midi_inner k (mi k) (mi k).length (Nat.le_refl _), List.take_length]
      by_cases hq : q = k
      · subst hq
        rw [Function.update_same, ih, if_neg (by omega), if_pos (by omega)]
      · rw [Function.update_noteq hq, ih]
        by_cases hlt : q < k
        · rw [if_pos hlt, if_pos (by omega)]
        · rw [if_neg hlt, if_neg (by omega)]
  refine ⟨key nOutPorts midiIn sent n, ?_⟩
  rw [key]
  decide

end JackRouter
